import Mathlib

/-!
Shallow embedding of the matrix-accelerator driver
(`src/sw/lib/matrix_accel_driver.c` over `src/sw/lib/matrix_accel_hal.h`).

The driver talks to a memory-mapped device purely through the HAL
accessors.  We model the device side by an `Env`: the value returned by
the n-th STATUS read, the value returned by the (single) CONFIG read-back,
and the contents of the 16 C result slots.  The driver side is a `Machine`
holding the count of STATUS reads performed so far and the trace of MMIO
transactions, most recent first.  Every HAL call appends exactly one event
to the trace, mirroring the "one memory transaction per call" HAL contract.

`matrix_accel_wait_done` can loop forever in C when `timeout = 0`; the
embedding adds a fuel parameter and returns `none` when the fuel is
exhausted, `some` when the C loop would have returned.
-/

namespace MatrixAccel

/-- Register bit constants from `matrix_accel_hal.h`. -/
def CONTROL_START_BIT : Nat := 1 <<< 0

def CONTROL_RESET_BIT : Nat := 1 <<< 1

def STATUS_DONE_BIT : Nat := 1 <<< 0

def STATUS_BUSY_BIT : Nat := 1 <<< 1

def MATRIX_SIZE : Nat := 4

/-- The `matrix_accel_result_t` enum of `matrix_accel_driver.h`. -/
inductive Result where
  | SUCCESS
  | ERROR_TIMEOUT
  | ERROR_BUSY
  | ERROR_INVALID_PARAM
deriving DecidableEq, Repr

/-- Integer value of each enum constant (`matrix_accel_driver.h` lines 24-29). -/
def Result.code : Result → Int
  | .SUCCESS => 0
  | .ERROR_TIMEOUT => -1
  | .ERROR_BUSY => -2
  | .ERROR_INVALID_PARAM => -3

/-- One MMIO transaction, as issued by the HAL accessors, plus the
`delay_cycles` busy-wait (recorded so that claims about delay quanta are
statable). -/
inductive Ev where
  | writeControl (v : Nat)
  | writeConfig (v : Nat)
  | writeA (index v : Nat)
  | writeB (index v : Nat)
  | readStatus (v : Nat)
  | readConfig (v : Nat)
  | readC (index v : Nat)
  | delay (cycles : Nat)
deriving DecidableEq, Repr

/-- Device-side responses: `statusSeq n` is the STATUS value returned by the
n-th STATUS read, `configRead` the CONFIG read-back value, `cSlots i` the
content of result slot `C[i]`. -/
structure Env where
  statusSeq : Nat → Nat
  configRead : Nat
  cSlots : Nat → Nat

/-- Driver-visible machine state: number of STATUS reads performed so far and
the trace of events, most recent first. -/
structure Machine where
  nStatus : Nat
  trace : List Ev

/-- A 4x4 input matrix (`matrix_input_t`), as the C array access function:
`a row col` is `a[row][col]`.  Only indices 0..3 are ever accessed. -/
def InMat : Type := Nat → Nat → Nat

/-- A 4x4 output matrix (`matrix_output_t`). -/
def OutMat : Type := Nat → Nat → Nat

/-- Write `result[r][c] = v` into a caller-provided output buffer. -/
def updOut (out : OutMat) (r c v : Nat) : OutMat :=
  fun r' c' => if r' = r ∧ c' = c then v else out r' c'

/-! ## HAL (`matrix_accel_hal.h`) -/

def hal_read_status (env : Env) (m : Machine) : Nat × Machine :=
  (env.statusSeq m.nStatus,
   { nStatus := m.nStatus + 1,
     trace := .readStatus (env.statusSeq m.nStatus) :: m.trace })

def hal_write_control (v : Nat) (m : Machine) : Machine :=
  { m with trace := .writeControl v :: m.trace }

def hal_write_config (v : Nat) (m : Machine) : Machine :=
  { m with trace := .writeConfig v :: m.trace }

def hal_read_config (env : Env) (m : Machine) : Nat × Machine :=
  (env.configRead, { m with trace := .readConfig env.configRead :: m.trace })

def hal_write_matrix_a_element (index v : Nat) (m : Machine) : Machine :=
  { m with trace := .writeA index v :: m.trace }

def hal_write_matrix_b_element (index v : Nat) (m : Machine) : Machine :=
  { m with trace := .writeB index v :: m.trace }

def hal_read_matrix_c_element (env : Env) (index : Nat) (m : Machine) :
    Nat × Machine :=
  (env.cSlots index, { m with trace := .readC index (env.cSlots index) :: m.trace })

/-- Embeds `delay_cycles` (driver lines 218-226): pure busy-wait, recorded as one
event carrying the number of quanta. -/
def delay_cycles (cycles : Nat) (m : Machine) : Machine :=
  { m with trace := .delay cycles :: m.trace }

/-! ## Driver (`matrix_accel_driver.c`) -/

/-- Embeds `matrix_accel_init` (lines 14-35). -/
def matrix_accel_init (env : Env) (m : Machine) : Result × Machine :=
  let m1 := hal_write_control CONTROL_RESET_BIT m
  let m2 := delay_cycles 10 m1
  let m3 := hal_write_control 0 m2
  let m4 := delay_cycles 10 m3
  let config := (MATRIX_SIZE <<< 16) ||| (MATRIX_SIZE <<< 8) ||| MATRIX_SIZE
  let m5 := hal_write_config config m4
  let (readback, m6) := hal_read_config env m5
  if readback ≠ config then (.ERROR_INVALID_PARAM, m6)
  else (.SUCCESS, m6)

/-- Embeds `matrix_accel_is_ready` (lines 37-40): true iff STATUS.BUSY is clear. -/
def matrix_accel_is_ready (env : Env) (m : Machine) : Bool × Machine :=
  let (status, m1) := hal_read_status env m
  ((status &&& STATUS_BUSY_BIT) == 0, m1)

/-- Embeds `matrix_accel_is_done` (lines 42-45): true iff STATUS.DONE is set. -/
def matrix_accel_is_done (env : Env) (m : Machine) : Bool × Machine :=
  let (status, m1) := hal_read_status env m
  ((status &&& STATUS_DONE_BIT) != 0, m1)

/-- Embeds `matrix_accel_load_matrix_a` (lines 47-62): busy check, then the nested
row/col loop writing element `index` (carried through the fold exactly as
the C `index` variable) with value `matrix[row][col]`. -/
def matrix_accel_load_matrix_a (env : Env) (matrix : InMat) (m : Machine) :
    Result × Machine :=
  let (rdy, m1) := matrix_accel_is_ready env m
  if !rdy then (.ERROR_BUSY, m1)
  else
    let fin := (List.range MATRIX_SIZE).foldl (fun acc row =>
      (List.range MATRIX_SIZE).foldl (fun acc2 col =>
        (acc2.1 + 1, hal_write_matrix_a_element acc2.1 (matrix row col) acc2.2))
        acc) ((0 : Nat), m1)
    (.SUCCESS, fin.2)

/-- Embeds `matrix_accel_load_matrix_b` (lines 64-79). -/
def matrix_accel_load_matrix_b (env : Env) (matrix : InMat) (m : Machine) :
    Result × Machine :=
  let (rdy, m1) := matrix_accel_is_ready env m
  if !rdy then (.ERROR_BUSY, m1)
  else
    let fin := (List.range MATRIX_SIZE).foldl (fun acc row =>
      (List.range MATRIX_SIZE).foldl (fun acc2 col =>
        (acc2.1 + 1, hal_write_matrix_b_element acc2.1 (matrix row col) acc2.2))
        acc) ((0 : Nat), m1)
    (.SUCCESS, fin.2)

/-- Embeds `matrix_accel_load_matrices` (lines 81-96). -/
def matrix_accel_load_matrices (env : Env) (matrix_a matrix_b : InMat)
    (m : Machine) : Result × Machine :=
  let (r1, m1) := matrix_accel_load_matrix_a env matrix_a m
  if r1 ≠ .SUCCESS then (r1, m1)
  else
    let (r2, m2) := matrix_accel_load_matrix_b env matrix_b m1
    if r2 ≠ .SUCCESS then (r2, m2)
    else (.SUCCESS, m2)

/-- Embeds `matrix_accel_start` (lines 98-112). -/
def matrix_accel_start (env : Env) (m : Machine) : Result × Machine :=
  let (rdy, m1) := matrix_accel_is_ready env m
  if !rdy then (.ERROR_BUSY, m1)
  else
    let m2 := hal_write_control CONTROL_START_BIT m1
    let m3 := delay_cycles 2 m2
    let m4 := hal_write_control 0 m3
    (.SUCCESS, m4)

/-- The polling loop of `matrix_accel_wait_done` (lines 117-123), with fuel:
`none` means the C loop has not returned within `fuel` STATUS reads. -/
def wait_done_loop (env : Env) (timeout_cycles : Nat) :
    Nat → Nat → Machine → Option (Result × Machine)
  | 0, _, _ => none
  | fuel + 1, cycles_waited, m =>
    let (done, m1) := matrix_accel_is_done env m
    if done then some (.SUCCESS, m1)
    else if timeout_cycles > 0 ∧ cycles_waited ≥ timeout_cycles then
      some (.ERROR_TIMEOUT, m1)
    else wait_done_loop env timeout_cycles fuel (cycles_waited + 1)
      (delay_cycles 1 m1)

/-- Embeds `matrix_accel_wait_done` (lines 114-126). -/
def matrix_accel_wait_done (env : Env) (timeout_cycles fuel : Nat)
    (m : Machine) : Option (Result × Machine) :=
  wait_done_loop env timeout_cycles fuel 0 m

/-- Embeds `matrix_accel_read_result` (lines 128-143): done check, then the nested
row/col loop reading slot `index` into `result[row][col]`.  `out0` is the
caller-provided output buffer, returned untouched on the Busy path. -/
def matrix_accel_read_result (env : Env) (out0 : OutMat) (m : Machine) :
    Result × OutMat × Machine :=
  let (done, m1) := matrix_accel_is_done env m
  if !done then (.ERROR_BUSY, out0, m1)
  else
    let fin := (List.range MATRIX_SIZE).foldl (fun acc row =>
      (List.range MATRIX_SIZE).foldl (fun acc2 col =>
        let (v, m2) := hal_read_matrix_c_element env acc2.1 acc2.2.2
        (acc2.1 + 1, updOut acc2.2.1 row col v, m2)) acc)
      ((0 : Nat), out0, m1)
    (.SUCCESS, fin.2.1, fin.2.2)

/-- Embeds `matrix_accel_multiply` (lines 145-176). -/
def matrix_accel_multiply (env : Env) (matrix_a matrix_b : InMat)
    (out0 : OutMat) (timeout_cycles fuel : Nat) (m : Machine) :
    Option (Result × OutMat × Machine) :=
  let (s1, m1) := matrix_accel_load_matrices env matrix_a matrix_b m
  if s1 ≠ .SUCCESS then some (s1, out0, m1)
  else
    let (s2, m2) := matrix_accel_start env m1
    if s2 ≠ .SUCCESS then some (s2, out0, m2)
    else
      match matrix_accel_wait_done env timeout_cycles fuel m2 with
      | none => none
      | some (s3, m3) =>
        if s3 ≠ .SUCCESS then some (s3, out0, m3)
        else
          let (s4, out, m4) := matrix_accel_read_result env out0 m3
          if s4 ≠ .SUCCESS then some (s4, out, m4)
          else some (.SUCCESS, out, m4)

/-- Embeds `matrix_accel_reset` (lines 178-188).  It issues no reads, so the `Env`
parameter is unused; it is kept for uniformity with the other operations. -/
def matrix_accel_reset (_env : Env) (m : Machine) : Result × Machine :=
  let m1 := hal_write_control CONTROL_RESET_BIT m
  let m2 := delay_cycles 10 m1
  let m3 := hal_write_control 0 m2
  let m4 := delay_cycles 10 m3
  (.SUCCESS, m4)

/-- Enum constants as C integer values, for `matrix_accel_error_string`,
whose C parameter type ranges over all `int` values. -/
def MATRIX_ACCEL_SUCCESS : Int := 0

def MATRIX_ACCEL_ERROR_TIMEOUT : Int := -1

def MATRIX_ACCEL_ERROR_BUSY : Int := -2

def MATRIX_ACCEL_ERROR_INVALID_PARAM : Int := -3

/-- Embeds `matrix_accel_error_string` (lines 202-215). -/
def matrix_accel_error_string (error : Int) : String :=
  if error = MATRIX_ACCEL_SUCCESS then "Success"
  else if error = MATRIX_ACCEL_ERROR_TIMEOUT then "Operation timeout"
  else if error = MATRIX_ACCEL_ERROR_BUSY then "Accelerator busy"
  else if error = MATRIX_ACCEL_ERROR_INVALID_PARAM then "Invalid parameter"
  else "Unknown error"

/-! ## Derived notions used by the theorems -/

/-- Total number of delay quanta recorded in a trace (sum of the
`delay_cycles` arguments). -/
def delayQuanta : List Ev → Nat
  | [] => 0
  | .delay n :: rest => n + delayQuanta rest
  | .writeControl _ :: rest => delayQuanta rest
  | .writeConfig _ :: rest => delayQuanta rest
  | .writeA _ _ :: rest => delayQuanta rest
  | .writeB _ _ :: rest => delayQuanta rest
  | .readStatus _ :: rest => delayQuanta rest
  | .readConfig _ :: rest => delayQuanta rest
  | .readC _ _ :: rest => delayQuanta rest

/-- The machine after a single STATUS read and nothing else: the state a
guarded operation leaves behind when it rejects the call. -/
def statRead (env : Env) (m : Machine) : Machine :=
  (hal_read_status env m).2

/-- The 16 element writes `load_matrix_a` performs when ready, in
chronological order: slot `index` receives `matrix[index / 4][index % 4]`,
for `index = 0, 1, ..., 15`. -/
def aStageWrites (matrix : InMat) : List Ev :=
  (List.range (MATRIX_SIZE * MATRIX_SIZE)).map
    (fun index => .writeA index (matrix (index / MATRIX_SIZE) (index % MATRIX_SIZE)))

/-- The 16 element writes `load_matrix_b` performs when ready. -/
def bStageWrites (matrix : InMat) : List Ev :=
  (List.range (MATRIX_SIZE * MATRIX_SIZE)).map
    (fun index => .writeB index (matrix (index / MATRIX_SIZE) (index % MATRIX_SIZE)))

/-- The 16 element reads `read_result` performs when done, in chronological
order. -/
def cReadEvents (env : Env) : List Ev :=
  (List.range (MATRIX_SIZE * MATRIX_SIZE)).map
    (fun index => .readC index (env.cSlots index))

/-- The i,j-th entry of the 4x4 matrix product, in 32-bit unsigned
arithmetic. -/
def matProd (a b : InMat) (i j : Nat) : Nat :=
  (∑ k ∈ Finset.range MATRIX_SIZE, a i k * b k j) % 2 ^ 32

/-! ## Concrete fixtures for witnesses and counterexamples -/

/-- Fresh machine: no STATUS reads yet, empty trace. -/
def m0 : Machine := { nStatus := 0, trace := [] }

/-- An all-zero caller output buffer. -/
def zeroOut : OutMat := fun _ _ => 0

/-- Device that always reports STATUS = 0 (idle: BUSY=0, DONE=0). -/
def envIdle : Env :=
  { statusSeq := fun _ => 0, configRead := 0x00040404, cSlots := fun _ => 0 }

/-- Device that always reports BUSY=1, DONE=0. -/
def envBusy : Env :=
  { statusSeq := fun _ => STATUS_BUSY_BIT, configRead := 0, cSlots := fun _ => 0 }

/-- Device that always reports DONE=1, BUSY=0. -/
def envDone : Env :=
  { statusSeq := fun _ => STATUS_DONE_BIT, configRead := 0x00040404,
    cSlots := fun i => 100 + i }

/-- Device that always reports BUSY=1 and DONE=1 simultaneously. -/
def envBoth : Env :=
  { statusSeq := fun _ => STATUS_BUSY_BIT ||| STATUS_DONE_BIT, configRead := 0,
    cSlots := fun _ => 7 }

/-- Device whose k-th STATUS read shows DONE and all others show idle. -/
def envDoneAt (k : Nat) : Env :=
  { statusSeq := fun n => if n = k then STATUS_DONE_BIT else 0,
    configRead := 0, cSlots := fun _ => 0 }

/-- A sample input matrix with 16 distinct byte entries. -/
def sampleIn : InMat := fun r c => r * 4 + c + 1

/-! ## Shared lemmas about the guarded operations -/

lemma load_matrix_a_busy (env : Env) (a : InMat) (m : Machine)
    (hbusy : env.statusSeq m.nStatus &&& STATUS_BUSY_BIT ≠ 0) :
    matrix_accel_load_matrix_a env a m = (.ERROR_BUSY, statRead env m) := by
  have hb : (env.statusSeq m.nStatus &&& STATUS_BUSY_BIT == 0) = false := by
    simpa using hbusy
  simp [matrix_accel_load_matrix_a, matrix_accel_is_ready, hal_read_status,
    statRead, hb]

lemma load_matrix_b_busy (env : Env) (b : InMat) (m : Machine)
    (hbusy : env.statusSeq m.nStatus &&& STATUS_BUSY_BIT ≠ 0) :
    matrix_accel_load_matrix_b env b m = (.ERROR_BUSY, statRead env m) := by
  have hb : (env.statusSeq m.nStatus &&& STATUS_BUSY_BIT == 0) = false := by
    simpa using hbusy
  simp [matrix_accel_load_matrix_b, matrix_accel_is_ready, hal_read_status,
    statRead, hb]

lemma start_busy (env : Env) (m : Machine)
    (hbusy : env.statusSeq m.nStatus &&& STATUS_BUSY_BIT ≠ 0) :
    matrix_accel_start env m = (.ERROR_BUSY, statRead env m) := by
  have hb : (env.statusSeq m.nStatus &&& STATUS_BUSY_BIT == 0) = false := by
    simpa using hbusy
  simp [matrix_accel_start, matrix_accel_is_ready, hal_read_status,
    statRead, hb]

lemma read_result_not_done (env : Env) (out0 : OutMat) (m : Machine)
    (hnd : env.statusSeq m.nStatus &&& STATUS_DONE_BIT = 0) :
    matrix_accel_read_result env out0 m = (.ERROR_BUSY, out0, statRead env m) := by
  have hd : (env.statusSeq m.nStatus &&& STATUS_DONE_BIT != 0) = false := by
    simp [hnd]
  simp [matrix_accel_read_result, matrix_accel_is_done, hal_read_status,
    statRead, hd]

lemma read_result_done (env : Env) (out0 : OutMat) (m : Machine)
    (hdone : env.statusSeq m.nStatus &&& STATUS_DONE_BIT ≠ 0) :
    (matrix_accel_read_result env out0 m).1 = .SUCCESS
    ∧ (matrix_accel_read_result env out0 m).2.2 =
        { nStatus := m.nStatus + 1,
          trace := (cReadEvents env).reverse ++
            .readStatus (env.statusSeq m.nStatus) :: m.trace }
    ∧ ∀ i j, i < MATRIX_SIZE → j < MATRIX_SIZE →
        (matrix_accel_read_result env out0 m).2.1 i j =
          env.cSlots (i * MATRIX_SIZE + j) := by
  have hd : (env.statusSeq m.nStatus &&& STATUS_DONE_BIT != 0) = true := by
    simpa using hdone
  refine ⟨?_, ?_, ?_⟩
  · simp [matrix_accel_read_result, matrix_accel_is_done, hal_read_status, hd]
  · simp only [matrix_accel_read_result, matrix_accel_is_done, hal_read_status,
      hal_read_matrix_c_element, hd, Bool.not_true, Bool.false_eq_true, if_false]
    rfl
  · intro i j hi hj
    have hi4 : i < 4 := hi
    have hj4 : j < 4 := hj
    simp only [matrix_accel_read_result, matrix_accel_is_done, hal_read_status,
      hal_read_matrix_c_element, hd, Bool.not_true, Bool.false_eq_true, if_false]
    interval_cases i <;> interval_cases j <;> rfl

lemma load_matrix_a_ready (env : Env) (a : InMat) (m : Machine)
    (hrdy : env.statusSeq m.nStatus &&& STATUS_BUSY_BIT = 0) :
    matrix_accel_load_matrix_a env a m =
      (.SUCCESS, Machine.mk (m.nStatus + 1)
        ((aStageWrites a).reverse ++
          .readStatus (env.statusSeq m.nStatus) :: m.trace)) := by
  have hb : (env.statusSeq m.nStatus &&& STATUS_BUSY_BIT == 0) = true := by
    simpa using hrdy
  simp only [matrix_accel_load_matrix_a, matrix_accel_is_ready, hal_read_status,
    hal_write_matrix_a_element, hb, Bool.not_true, Bool.false_eq_true, if_false]
  rfl

lemma load_matrix_b_ready (env : Env) (b : InMat) (m : Machine)
    (hrdy : env.statusSeq m.nStatus &&& STATUS_BUSY_BIT = 0) :
    matrix_accel_load_matrix_b env b m =
      (.SUCCESS, Machine.mk (m.nStatus + 1)
        ((bStageWrites b).reverse ++
          .readStatus (env.statusSeq m.nStatus) :: m.trace)) := by
  have hb : (env.statusSeq m.nStatus &&& STATUS_BUSY_BIT == 0) = true := by
    simpa using hrdy
  simp only [matrix_accel_load_matrix_b, matrix_accel_is_ready, hal_read_status,
    hal_write_matrix_b_element, hb, Bool.not_true, Bool.false_eq_true, if_false]
  rfl

lemma wait_done_loop_no_done (env : Env) (t : Nat)
    (hno : ∀ n, env.statusSeq n &&& STATUS_DONE_BIT = 0) (ht : 0 < t) :
    ∀ fuel w m, t + 1 ≤ w + fuel → w ≤ t →
      ∃ m', wait_done_loop env t fuel w m = some (.ERROR_TIMEOUT, m')
        ∧ delayQuanta m'.trace = delayQuanta m.trace + (t - w) := by
  intro fuel
  induction fuel with
  | zero => intro w m hwf hwt; omega
  | succ f ih =>
    intro w m hwf hwt
    have hd : (env.statusSeq m.nStatus &&& STATUS_DONE_BIT != 0) = false := by
      simp [hno m.nStatus]
    by_cases hw : w ≥ t
    · have hweq : w = t := le_antisymm hwt hw
      refine ⟨(matrix_accel_is_done env m).2, ?_, ?_⟩
      · simp [wait_done_loop, matrix_accel_is_done, hal_read_status, hd, ht, hw]
      · simp [matrix_accel_is_done, hal_read_status, delayQuanta, hweq]
    · have hcond : ¬ (t > 0 ∧ w ≥ t) := fun hc => hw hc.2
      obtain ⟨m', hm', hq⟩ :=
        ih (w + 1) (delay_cycles 1 (matrix_accel_is_done env m).2)
          (by omega) (by omega)
      refine ⟨m', ?_, ?_⟩
      · simp only [wait_done_loop, matrix_accel_is_done, hal_read_status, hd,
          Bool.false_eq_true, if_false, hcond]
        simpa [matrix_accel_is_done, hal_read_status] using hm'
      · rw [hq]
        simp only [delay_cycles, matrix_accel_is_done, hal_read_status,
          delayQuanta]
        omega

lemma wait_done_loop_zero_no_timeout (env : Env) :
    ∀ fuel w m m', wait_done_loop env 0 fuel w m ≠ some (.ERROR_TIMEOUT, m') := by
  intro fuel
  induction fuel with
  | zero => intro w m m' h; exact Option.noConfusion h
  | succ f ih =>
    intro w m m' h
    by_cases hd : (env.statusSeq m.nStatus &&& STATUS_DONE_BIT != 0) = true
    · rw [show wait_done_loop env 0 (f + 1) w m =
          some (.SUCCESS, (matrix_accel_is_done env m).2) by
            simp [wait_done_loop, matrix_accel_is_done, hal_read_status, hd]] at h
      simp at h
    · have hd' : (env.statusSeq m.nStatus &&& STATUS_DONE_BIT != 0) = false := by
        revert hd; cases env.statusSeq m.nStatus &&& STATUS_DONE_BIT != 0 <;> simp
      rw [show wait_done_loop env 0 (f + 1) w m =
          wait_done_loop env 0 f (w + 1)
            (delay_cycles 1 (matrix_accel_is_done env m).2) by
            simp [wait_done_loop, matrix_accel_is_done, hal_read_status, hd']] at h
      exact ih (w + 1) _ m' h

lemma wait_done_loop_zero_success (env : Env) :
    ∀ fuel w m n, n < fuel →
      env.statusSeq (m.nStatus + n) &&& STATUS_DONE_BIT ≠ 0 →
      ∃ m', wait_done_loop env 0 fuel w m = some (.SUCCESS, m') := by
  intro fuel
  induction fuel with
  | zero => intro w m n hn; omega
  | succ f ih =>
    intro w m n hn hdn
    by_cases hd : (env.statusSeq m.nStatus &&& STATUS_DONE_BIT != 0) = true
    · exact ⟨(matrix_accel_is_done env m).2, by
        simp [wait_done_loop, matrix_accel_is_done, hal_read_status, hd]⟩
    · have hd' : (env.statusSeq m.nStatus &&& STATUS_DONE_BIT != 0) = false := by
        revert hd; cases env.statusSeq m.nStatus &&& STATUS_DONE_BIT != 0 <;> simp
    -- the first read was not done, so n cannot be 0
      have hn0 : n ≠ 0 := by
        intro h0
        apply hdn
        have := hd'
        simp only [bne, Bool.not_eq_false] at this
        simpa [h0] using (Nat.beq_eq ..).mp (by simpa [bne] using this)
      obtain ⟨k, rfl⟩ := Nat.exists_eq_succ_of_ne_zero hn0
      have hstep : (delay_cycles 1 (matrix_accel_is_done env m).2).nStatus =
          m.nStatus + 1 := rfl
      obtain ⟨m', hm'⟩ := ih (w + 1) (delay_cycles 1 (matrix_accel_is_done env m).2)
        k (by omega) (by
          rw [hstep, show m.nStatus + 1 + k = m.nStatus + k.succ from by omega]
          exact hdn)
      refine ⟨m', ?_⟩
      simp only [wait_done_loop, matrix_accel_is_done, hal_read_status, hd',
        Bool.false_eq_true, if_false]
      simpa [matrix_accel_is_done, hal_read_status] using hm'

/-! ## Claims -/

/-- C3: `init` writes the canonical ConfigWord 0x00040404 (P=4 in bits
31:16, N=4 in bits 15:8, M=4 in bits 7:0) to CONFIG, reads CONFIG back, and
returns Success iff the read-back equals the written value, InvalidParam
otherwise. -/
theorem init_config_roundtrip (env : Env) (m : Machine) :
    (matrix_accel_init env m).2.trace =
      .readConfig env.configRead :: .writeConfig 0x00040404 :: .delay 10 ::
        .writeControl 0 :: .delay 10 :: .writeControl CONTROL_RESET_BIT :: m.trace
    ∧ ((matrix_accel_init env m).1 = .SUCCESS ↔ env.configRead = 0x00040404)
    ∧ ((matrix_accel_init env m).1 = .SUCCESS ∨
        (matrix_accel_init env m).1 = .ERROR_INVALID_PARAM) := by
  have hc : (MATRIX_SIZE <<< 16) ||| (MATRIX_SIZE <<< 8) ||| MATRIX_SIZE =
      0x00040404 := by decide
  simp only [matrix_accel_init, hal_write_control, hal_write_config,
    hal_read_config, delay_cycles, hc]
  by_cases h : env.configRead = 0x00040404
  · simp [h]
  · simp [h]

/-- C8: `reset` writes CONTROL with RESET set, delays, writes CONTROL = 0,
and returns Success from every machine state; if the next STATUS read shows
BUSY and DONE clear (the device clears them on RESET), then immediately
after reset `is_ready()` is true and `is_done()` is false. -/
theorem reset_always_success_ready (env : Env) (m : Machine)
    (hb : env.statusSeq m.nStatus &&& STATUS_BUSY_BIT = 0)
    (hd : env.statusSeq m.nStatus &&& STATUS_DONE_BIT = 0) :
    matrix_accel_reset env m =
      (.SUCCESS, { m with trace :=
        [.delay 10, .writeControl 0, .delay 10,
         .writeControl CONTROL_RESET_BIT] ++ m.trace })
    ∧ (matrix_accel_is_ready env (matrix_accel_reset env m).2).1 = true
    ∧ (matrix_accel_is_done env (matrix_accel_reset env m).2).1 = false := by
  refine ⟨rfl, ?_, ?_⟩
  · simp [matrix_accel_reset, matrix_accel_is_ready, hal_read_status,
      hal_write_control, delay_cycles, hb]
  · simp [matrix_accel_reset, matrix_accel_is_done, hal_read_status,
      hal_write_control, delay_cycles, hd]

/-- Witness for C8 at the always-idle device and a fresh machine. -/
theorem reset_always_success_ready_witness :
    matrix_accel_reset envIdle m0 =
      (.SUCCESS, { m0 with trace :=
        [.delay 10, .writeControl 0, .delay 10,
         .writeControl CONTROL_RESET_BIT] ++ m0.trace })
    ∧ (matrix_accel_is_ready envIdle (matrix_accel_reset envIdle m0).2).1 = true
    ∧ (matrix_accel_is_done envIdle (matrix_accel_reset envIdle m0).2).1 = false :=
  reset_always_success_ready envIdle m0 rfl rfl

/-- C9: `error_string` is total over all integer inputs, maps the four enum
codes to their labels, every other integer to "Unknown error", and returns a
non-empty string on every input, in particular on every Outcome code. -/
theorem error_string_total :
    matrix_accel_error_string (Result.code .SUCCESS) = "Success"
    ∧ matrix_accel_error_string (Result.code .ERROR_TIMEOUT) = "Operation timeout"
    ∧ matrix_accel_error_string (Result.code .ERROR_BUSY) = "Accelerator busy"
    ∧ matrix_accel_error_string (Result.code .ERROR_INVALID_PARAM) =
        "Invalid parameter"
    ∧ (∀ v : Int, v ≠ 0 → v ≠ -1 → v ≠ -2 → v ≠ -3 →
        matrix_accel_error_string v = "Unknown error")
    ∧ (∀ v : Int, matrix_accel_error_string v ≠ "")
    ∧ (∀ r : Result, matrix_accel_error_string r.code ≠ "") := by
  refine ⟨rfl, rfl, rfl, rfl, ?_, ?_, ?_⟩
  · intro v h0 h1 h2 h3
    simp [matrix_accel_error_string, MATRIX_ACCEL_SUCCESS,
      MATRIX_ACCEL_ERROR_TIMEOUT, MATRIX_ACCEL_ERROR_BUSY,
      MATRIX_ACCEL_ERROR_INVALID_PARAM, h0, h1, h2, h3]
  · intro v
    unfold matrix_accel_error_string
    split_ifs <;> simp
  · intro r
    unfold matrix_accel_error_string
    split_ifs <;> simp

/-- Witness for C9: the out-of-enum value 42 maps to "Unknown error". -/
theorem error_string_total_witness :
    matrix_accel_error_string 42 = "Unknown error" :=
  error_string_total.2.2.2.2.1 42 (by decide) (by decide) (by decide) (by decide)

/-- C4: for every timeout t > 0 (a uint32 value), if no STATUS read ever
shows DONE, `wait_done(t)` terminates (within any fuel of at least t + 1
polls) and returns Timeout after burning exactly t delay quanta. -/
theorem wait_done_timeout_exact (env : Env) (t fuel : Nat) (m : Machine)
    (ht : 0 < t) (ht32 : t < 2 ^ 32) (hfuel : t + 1 ≤ fuel)
    (hno : ∀ n, env.statusSeq n &&& STATUS_DONE_BIT = 0) :
    ∃ m', matrix_accel_wait_done env t fuel m = some (.ERROR_TIMEOUT, m')
      ∧ delayQuanta m'.trace = delayQuanta m.trace + t := by
  obtain ⟨m', h1, h2⟩ :=
    wait_done_loop_no_done env t hno ht fuel 0 m (by omega) (by omega)
  exact ⟨m', h1, by simpa using h2⟩

/-- Witness for C4: device never done, timeout 2, fuel 3. -/
theorem wait_done_timeout_exact_witness :
    ∃ m', matrix_accel_wait_done envIdle 2 3 m0 = some (.ERROR_TIMEOUT, m')
      ∧ delayQuanta m'.trace = delayQuanta m0.trace + 2 :=
  wait_done_timeout_exact envIdle 2 3 m0 (by decide) (by norm_num) (by decide)
    (by intro n; simp [envIdle])

/-- C5: `wait_done(0)` never returns Timeout, and as soon as some STATUS
read (within the fuel) shows DONE it returns Success — for every sequence
of STATUS values. -/
theorem wait_done_zero_never_timeout (env : Env) (fuel : Nat) (m : Machine) :
    (∀ m', matrix_accel_wait_done env 0 fuel m ≠ some (.ERROR_TIMEOUT, m'))
    ∧ (∀ n, n < fuel →
        env.statusSeq (m.nStatus + n) &&& STATUS_DONE_BIT ≠ 0 →
        ∃ m', matrix_accel_wait_done env 0 fuel m = some (.SUCCESS, m')) :=
  ⟨fun m' => wait_done_loop_zero_no_timeout env fuel 0 m m',
   fun n hn hdn => wait_done_loop_zero_success env fuel 0 m n hn hdn⟩

/-- Witness for C5: DONE appears on the second STATUS read; `wait_done(0)`
returns Success. -/
theorem wait_done_zero_never_timeout_witness :
    ∃ m', matrix_accel_wait_done (envDoneAt 1) 0 2 m0 = some (.SUCCESS, m') :=
  (wait_done_zero_never_timeout (envDoneAt 1) 2 m0).2 1 (by decide) (by decide)

/-- Spec-side sequencing (§4.3.8, §7 of the spec): run one step; if its
outcome is not Success, stop there and return that outcome (with the
output buffer untouched), else continue with the next step. -/
def stepThen (x : Result × Machine) (out0 : OutMat)
    (k : Machine → Option (Result × OutMat × Machine)) :
    Option (Result × OutMat × Machine) :=
  if x.1 = .SUCCESS then k x.2 else some (x.1, out0, x.2)

/-- Spec-side composition: `load_matrix_a` then `load_matrix_b`,
short-circuiting on the first non-Success outcome. -/
def load_matrices_composed (env : Env) (a b : InMat) (m : Machine) :
    Result × Machine :=
  let x := matrix_accel_load_matrix_a env a m
  if x.1 = .SUCCESS then matrix_accel_load_matrix_b env b x.2 else x

/-- Spec-side composition: `load_matrices ; start ; wait_done(timeout) ;
read_result`, short-circuiting on the first non-Success outcome. -/
def multiply_composed (env : Env) (a b : InMat) (out0 : OutMat)
    (timeout_cycles fuel : Nat) (m : Machine) :
    Option (Result × OutMat × Machine) :=
  stepThen (matrix_accel_load_matrices env a b m) out0 (fun m1 =>
    stepThen (matrix_accel_start env m1) out0 (fun m2 =>
      (matrix_accel_wait_done env timeout_cycles fuel m2).bind (fun x3 =>
        if x3.1 = .SUCCESS then some (matrix_accel_read_result env out0 x3.2)
        else some (x3.1, out0, x3.2))))

/-- C6: `multiply` is exactly the sequential composition
`load_matrices ; start ; wait_done(timeout) ; read_result`, and
`load_matrices` is exactly `load_matrix_a ; load_matrix_b`, each stopping
at the first non-Success outcome and returning Success only when every
step succeeded. -/
theorem multiply_is_sequential_composition (env : Env) (a b : InMat)
    (out0 : OutMat) (timeout_cycles fuel : Nat) (m : Machine) :
    matrix_accel_multiply env a b out0 timeout_cycles fuel m =
      multiply_composed env a b out0 timeout_cycles fuel m
    ∧ matrix_accel_load_matrices env a b m =
      load_matrices_composed env a b m := by
  constructor
  · unfold matrix_accel_multiply multiply_composed stepThen
    generalize matrix_accel_load_matrices env a b m = x1
    rcases x1 with ⟨s1, m1⟩
    cases s1 <;> simp
    generalize matrix_accel_start env m1 = x2
    rcases x2 with ⟨s2, m2⟩
    cases s2 <;> simp
    generalize matrix_accel_wait_done env timeout_cycles fuel m2 = o3
    rcases o3 with _ | ⟨s3, m3⟩
    · simp
    cases s3 <;> simp
    generalize matrix_accel_read_result env out0 m3 = x4
    rcases x4 with ⟨s4, out4, m4⟩
    cases s4 <;> simp
  · unfold matrix_accel_load_matrices load_matrices_composed
    generalize matrix_accel_load_matrix_a env a m = x1
    rcases x1 with ⟨s1, m1⟩
    cases s1 <;> simp
    generalize matrix_accel_load_matrix_b env b m1 = x2
    rcases x2 with ⟨s2, m2⟩
    cases s2 <;> simp

/-- C1: whenever `multiply(a, b)` returns Success and the device delivers
in the C slots the product of the staged operands (in 32-bit unsigned
arithmetic), the i,j-th output entry is Σ_{k=0..3} a[i][k]·b[k][j] mod 2^32. -/
theorem multiply_computes_product (env : Env) (a b : InMat) (out0 : OutMat)
    (t fuel : Nat) (m : Machine) (out : OutMat) (m' : Machine)
    (_ha8 : ∀ i j, i < MATRIX_SIZE → j < MATRIX_SIZE → a i j < 256)
    (_hb8 : ∀ i j, i < MATRIX_SIZE → j < MATRIX_SIZE → b i j < 256)
    (hdev : ∀ i j, i < MATRIX_SIZE → j < MATRIX_SIZE →
      env.cSlots (i * MATRIX_SIZE + j) = matProd a b i j)
    (hrun : matrix_accel_multiply env a b out0 t fuel m =
      some (.SUCCESS, out, m')) :
    ∀ i j, i < MATRIX_SIZE → j < MATRIX_SIZE → out i j = matProd a b i j := by
  intro i j hi hj
  unfold matrix_accel_multiply at hrun
  rcases hx1 : matrix_accel_load_matrices env a b m with ⟨s1, m1⟩
  simp only [hx1] at hrun
  by_cases e1 : s1 = .SUCCESS
  swap
  · simp [e1] at hrun
  subst e1
  rw [if_neg (fun hc => hc rfl)] at hrun
  rcases hx2 : matrix_accel_start env m1 with ⟨s2, m2⟩
  simp only [hx2] at hrun
  by_cases e2 : s2 = .SUCCESS
  swap
  · simp [e2] at hrun
  subst e2
  rw [if_neg (fun hc => hc rfl)] at hrun
  rcases hx3 : matrix_accel_wait_done env t fuel m2 with _ | ⟨s3, m3⟩
  · simp only [hx3] at hrun
    exact Option.noConfusion hrun
  · simp only [hx3] at hrun
    by_cases e3 : s3 = .SUCCESS
    swap
    · simp [e3] at hrun
    subst e3
    rw [if_neg (fun hc => hc rfl)] at hrun
    rcases hx4 : matrix_accel_read_result env out0 m3 with ⟨s4, out4, m4⟩
    simp only [hx4] at hrun
    by_cases e4 : s4 = .SUCCESS
    swap
    · simp [e4] at hrun
    subst e4
    rw [if_neg (fun hc => hc rfl)] at hrun
    simp only [Option.some.injEq, Prod.mk.injEq, true_and] at hrun
    by_cases hdone : env.statusSeq m3.nStatus &&& STATUS_DONE_BIT = 0
    · rw [read_result_not_done env out0 m3 hdone] at hx4
      exact absurd (congrArg Prod.fst hx4) (by simp)
    · have hent := (read_result_done env out0 m3 hdone).2.2 i j hi hj
      rw [hx4] at hent
      rw [← hrun.1, ← hdev i j hi hj]
      exact hent

/-- The device environment for the C1 witness: idle for the three guard
reads, DONE from the fourth STATUS read on, and C slots holding the
product of the sample operands. -/
def envGo : Env :=
  { statusSeq := fun n => if n ≤ 2 then 0 else STATUS_DONE_BIT,
    configRead := 0x00040404,
    cSlots := fun index =>
      matProd sampleIn sampleIn (index / MATRIX_SIZE) (index % MATRIX_SIZE) }

/-- The C1 witness run and the output matrix and machine it produces. -/
def multRun : Option (Result × OutMat × Machine) :=
  matrix_accel_multiply envGo sampleIn sampleIn zeroOut 5 5 m0

def multOut : OutMat :=
  fun i j => (multRun.getD (.SUCCESS, zeroOut, m0)).2.1 i j

def multMach : Machine :=
  (multRun.getD (.SUCCESS, zeroOut, m0)).2.2

/-- Witness for C1: a fully concrete successful run of `multiply` on the
sample operands whose output entry (1,2) is the 32-bit dot product. -/
theorem multiply_computes_product_witness :
    multOut 1 2 = matProd sampleIn sampleIn 1 2 :=
  multiply_computes_product envGo sampleIn sampleIn zeroOut 5 5 m0
    multOut multMach
    (by
      intro i j hi hj
      have hi4 : i < 4 := hi
      have hj4 : j < 4 := hj
      simp only [sampleIn]
      omega)
    (by
      intro i j hi hj
      have hi4 : i < 4 := hi
      have hj4 : j < 4 := hj
      simp only [sampleIn]
      omega)
    (by
      intro i j hi hj
      have hi4 : i < 4 := hi
      have hj4 : j < 4 := hj
      interval_cases i <;> interval_cases j <;> rfl)
    (by rfl) 1 2 (by decide) (by decide)

/-- C2 counterexample: with the device reporting BUSY=1 and DONE=1
(STATUS = 3), `is_ready()` is false, yet `read_result` returns Success, not
Busy, and reads the C slots — refuting the claim that every one of the four
operations returns Busy whenever `is_ready()` is false. -/
theorem read_result_busy_guard_cex :
    (matrix_accel_is_ready envBoth m0).1 = false
    ∧ (matrix_accel_read_result envBoth zeroOut m0).1 = .SUCCESS
    ∧ (matrix_accel_read_result envBoth zeroOut m0).1 ≠ .ERROR_BUSY := by
  refine ⟨rfl, rfl, by decide⟩

/-- C2 (amended): in every device state with STATUS.BUSY = 1 — whatever the
DONE bit — `load_matrix_a`, `load_matrix_b` and `start` each return Busy
after a single STATUS read, performing no MMIO write; `read_result` does
the same exactly when STATUS.DONE = 0 (its guard is `is_done`, not
`is_ready`), and whenever STATUS.DONE = 1, even with BUSY = 1, it proceeds
and returns Success. -/
theorem guarded_ops_busy_rejection (env : Env) (a b : InMat) (out0 : OutMat)
    (m : Machine) :
    (env.statusSeq m.nStatus &&& STATUS_BUSY_BIT ≠ 0 →
      matrix_accel_load_matrix_a env a m = (.ERROR_BUSY, statRead env m)
      ∧ matrix_accel_load_matrix_b env b m = (.ERROR_BUSY, statRead env m)
      ∧ matrix_accel_start env m = (.ERROR_BUSY, statRead env m))
    ∧ (env.statusSeq m.nStatus &&& STATUS_DONE_BIT = 0 →
        matrix_accel_read_result env out0 m =
          (.ERROR_BUSY, out0, statRead env m))
    ∧ (env.statusSeq m.nStatus &&& STATUS_DONE_BIT ≠ 0 →
        (matrix_accel_read_result env out0 m).1 = .SUCCESS) :=
  ⟨fun hbusy => ⟨load_matrix_a_busy env a m hbusy,
    load_matrix_b_busy env b m hbusy, start_busy env m hbusy⟩,
   fun hnotdone => read_result_not_done env out0 m hnotdone,
   fun hdone => (read_result_done env out0 m hdone).1⟩

/-- Witness for amended C2: at the BUSY=1, DONE=1 device (STATUS = 3) the
loads and start are rejected while `read_result` succeeds; at the BUSY=1,
DONE=0 device (STATUS = 2) `read_result` is rejected. -/
theorem guarded_ops_busy_rejection_witness :
    (matrix_accel_load_matrix_a envBoth sampleIn m0 =
        (.ERROR_BUSY, statRead envBoth m0)
      ∧ matrix_accel_load_matrix_b envBoth sampleIn m0 =
        (.ERROR_BUSY, statRead envBoth m0)
      ∧ matrix_accel_start envBoth m0 = (.ERROR_BUSY, statRead envBoth m0))
    ∧ (matrix_accel_read_result envBoth zeroOut m0).1 = .SUCCESS
    ∧ matrix_accel_read_result envBusy zeroOut m0 =
      (.ERROR_BUSY, zeroOut, statRead envBusy m0) :=
  ⟨(guarded_ops_busy_rejection envBoth sampleIn sampleIn zeroOut m0).1
      (by decide),
   (guarded_ops_busy_rejection envBoth sampleIn sampleIn zeroOut m0).2.2
      (by decide),
   (guarded_ops_busy_rejection envBusy sampleIn sampleIn zeroOut m0).2.1
      (by decide)⟩

/-- C7: when STATUS.BUSY = 0, `load_matrix_a` performs exactly the 16
element writes of the A staging region in row-major, increasing-index order
(slot `index` gets `matrix[index / 4][index % 4]`, so row r, column c lands
in slot r*4 + c) and returns Success; `load_matrix_b` does the same for the
B region.  Traces are most-recent-first, hence the `.reverse`. -/
theorem load_matrix_row_major_writes (env : Env) (a b : InMat) (m : Machine)
    (hrdy : env.statusSeq m.nStatus &&& STATUS_BUSY_BIT = 0) :
    matrix_accel_load_matrix_a env a m =
      (.SUCCESS, Machine.mk (m.nStatus + 1)
        ((aStageWrites a).reverse ++
          .readStatus (env.statusSeq m.nStatus) :: m.trace))
    ∧ matrix_accel_load_matrix_b env b m =
      (.SUCCESS, Machine.mk (m.nStatus + 1)
        ((bStageWrites b).reverse ++
          .readStatus (env.statusSeq m.nStatus) :: m.trace))
    ∧ ∀ r c, r < MATRIX_SIZE → c < MATRIX_SIZE →
        (aStageWrites a).get? (r * MATRIX_SIZE + c) = some (.writeA (r * MATRIX_SIZE + c) (a r c))
        ∧ (bStageWrites b).get? (r * MATRIX_SIZE + c) = some (.writeB (r * MATRIX_SIZE + c) (b r c)) := by
  refine ⟨load_matrix_a_ready env a m hrdy, load_matrix_b_ready env b m hrdy, ?_⟩
  intro r c hr hc
  have hr4 : r < 4 := hr
  have hc4 : c < 4 := hc
  interval_cases r <;> interval_cases c <;> exact ⟨rfl, rfl⟩

/-- Witness for C7 at the idle device with a sample matrix. -/
theorem load_matrix_row_major_writes_witness :
    matrix_accel_load_matrix_a envIdle sampleIn m0 =
      (.SUCCESS, Machine.mk (m0.nStatus + 1)
        ((aStageWrites sampleIn).reverse ++
          .readStatus (envIdle.statusSeq m0.nStatus) :: m0.trace))
    ∧ (aStageWrites sampleIn).get? 7 = some (.writeA 7 (sampleIn 1 3)) :=
  ⟨(load_matrix_row_major_writes envIdle sampleIn sampleIn m0 (by decide)).1,
   ((load_matrix_row_major_writes envIdle sampleIn sampleIn m0 (by decide)).2.2
     1 3 (by decide) (by decide)).1⟩

/-- C10: `read_result` returns Busy exactly when the DONE bit of a fresh
STATUS read is 0 — in particular also in the idle state BUSY=0, DONE=0 —
and whenever DONE = 1 it reads the 16 C slots and returns Success,
regardless of the BUSY bit. -/
theorem read_result_done_guard (env : Env) (out0 : OutMat) (m : Machine) :
    ((matrix_accel_read_result env out0 m).1 = .ERROR_BUSY ↔
      env.statusSeq m.nStatus &&& STATUS_DONE_BIT = 0)
    ∧ (env.statusSeq m.nStatus &&& STATUS_DONE_BIT = 0 →
        matrix_accel_read_result env out0 m = (.ERROR_BUSY, out0, statRead env m))
    ∧ (env.statusSeq m.nStatus &&& STATUS_DONE_BIT ≠ 0 →
        (matrix_accel_read_result env out0 m).1 = .SUCCESS
        ∧ (matrix_accel_read_result env out0 m).2.2.trace =
            (cReadEvents env).reverse ++
              .readStatus (env.statusSeq m.nStatus) :: m.trace
        ∧ ∀ i j, i < MATRIX_SIZE → j < MATRIX_SIZE →
            (matrix_accel_read_result env out0 m).2.1 i j =
              env.cSlots (i * MATRIX_SIZE + j)) := by
  by_cases hd : env.statusSeq m.nStatus &&& STATUS_DONE_BIT = 0
  · refine ⟨?_, fun _ => read_result_not_done env out0 m hd, fun hc => absurd hd hc⟩
    rw [read_result_not_done env out0 m hd]
    simpa using hd
  · obtain ⟨h1, h2, h3⟩ := read_result_done env out0 m hd
    refine ⟨?_, fun hc => absurd hc hd, fun _ => ⟨h1, ?_, h3⟩⟩
    · rw [h1]
      simp [hd]
    · rw [h2]

/-- Witness for C10: with BUSY=1 and DONE=1 (STATUS = 3), `read_result`
returns Success and delivers the C slots; with STATUS = 0 it returns Busy. -/
theorem read_result_done_guard_witness :
    ((matrix_accel_read_result envBoth zeroOut m0).1 = .SUCCESS
      ∧ (matrix_accel_read_result envBoth zeroOut m0).2.1 2 3 =
          envBoth.cSlots (2 * MATRIX_SIZE + 3))
    ∧ matrix_accel_read_result envIdle zeroOut m0 =
        (.ERROR_BUSY, zeroOut, statRead envIdle m0) :=
  ⟨⟨((read_result_done_guard envBoth zeroOut m0).2.2 (by decide)).1,
    ((read_result_done_guard envBoth zeroOut m0).2.2 (by decide)).2.2
      2 3 (by decide) (by decide)⟩,
   (read_result_done_guard envIdle zeroOut m0).2.1 (by decide)⟩

end MatrixAccel
